import Mathlib

/-!
# performance-api: the snippets of `src/app.js` as state machines

Every snippet of `src/app.js` is a React function component.  A component is
embedded as a function from its props and its hook state to the messages it
writes to the console and the markup it returns; the hook state (the cell of
`useState`, the cache of `useMemo`, the pending cleanup of `useEffect`) is
passed explicitly from one render to the next.

The counter `number` is a `Nat` that starts at `0`.  The `value` prop is a
JavaScript number, an IEEE-754 double, and `value * 2` is the multiplication of
doubles by the literal `2`.
-/

namespace PerformanceApi

/-- The messages written by `console.log`, oldest first. -/
abbrev Console := List String

/-- A JavaScript number: an IEEE-754 double.  A finite double is given by its
sign bit, its biased exponent `0..2046` and its fraction of 52 bits; every NaN
is the one value `nan`.  Equality of this type is `Object.is`: `nan` equals
itself, and `+0` and `-0` differ. -/
inductive Double where
  | nan
  | infinity (negative : Bool)
  | finite (negative : Bool) (exponent : Nat) (fraction : Nat)
deriving DecidableEq, Repr

/-- The bit fields of a double are in range. -/
def Double.WellFormed : Double → Prop
  | .finite _ exponent fraction => exponent ≤ 2046 ∧ fraction < 2 ^ 52
  | _ => True

instance : DecidablePred Double.WellFormed := fun x => by
  cases x <;> unfold Double.WellFormed <;> infer_instance

/-- The rational number a finite double stands for: `± fraction * 2^(-1074)`
for the exponent `0` (zero and the subnormal numbers) and
`± (2^52 + fraction) * 2^(exponent - 1075)` for a normal number. -/
def Double.toRat : Double → Option ℚ
  | .finite negative 0 fraction =>
    some ((if negative then -1 else 1) * fraction * 2 ^ (-1074 : Int))
  | .finite negative (e + 1) fraction =>
    some ((if negative then -1 else 1) * (2 ^ 52 + fraction) * 2 ^ ((e : Int) + 1 - 1075))
  | _ => none

/-- Lines 73 and 98: `value * 2` on doubles.  Doubling is exact: a subnormal
number doubles its fraction (and becomes normal when the fraction reaches
`2^52`), a normal number gains one in the exponent, and past the largest
exponent the result is the infinity of the same sign; `NaN * 2` is `NaN`. -/
def Double.mulTwo : Double → Double
  | .nan => .nan
  | .infinity negative => .infinity negative
  | .finite negative 0 fraction =>
    if 2 * fraction < 2 ^ 52 then .finite negative 0 (2 * fraction)
    else .finite negative 1 (2 * fraction - 2 ^ 52)
  | .finite negative (e + 1) fraction =>
    if e + 2 ≤ 2046 then .finite negative (e + 2) fraction else .infinity negative

/-- The double `20` of lines 63 and 87: `1.25 * 2^4`. -/
def Double.twenty : Double := .finite false 1027 (2 ^ 50)

/-- The double `40`: `1.25 * 2^5`. -/
def Double.forty : Double := .finite false 1028 (2 ^ 50)

/-- A JSX child of a host element: a piece of text, the counter in braces, or
a double in braces. -/
inductive Atom where
  | text (s : String)
  | num (n : Int)
  | double (x : Double)
deriving DecidableEq, Repr

/-- A host element (`<div>`, `<button>`) with its children. -/
structure Host where
  tag : String
  children : List Atom
deriving DecidableEq, Repr

/-- Modelled from the spec: the framework's hooks are not part of the
repository.  "Dependency array: a framework-recognized list of values that
gates when an effect or memoized computation re-executes."  `prev` is what the
hook stored at its last run (`none` before the first render); a dependency
array is `some deps`, a hook called without one is `none`.  The hook runs again
on the first render, when there is no dependency array, and when the array
differs from the stored one. -/
def depsChanged {δ : Type} [DecidableEq δ]
    (prev : Option (Option (List δ))) (next : Option (List δ)) : Bool :=
  match prev, next with
  | some (some p), some n => decide (p ≠ n)
  | _, _ => true

/-- What `useEffect` keeps between renders: the dependency array of the last
run of the effect and the cleanup function that run returned. -/
structure EffectCell (ε δ : Type) where
  deps : Option (List δ)
  cleanup : Option (ε → ε)

/-- Modelled from the spec: `useEffect` is not part of the repository.  An
effect acts on an environment `ε` (the window, the network) after the render is
committed and may return a cleanup function.  It runs when `depsChanged` says
so, after the cleanup of its previous run; otherwise nothing happens. -/
def useEffect {ε δ : Type} [DecidableEq δ] (cell : Option (EffectCell ε δ))
    (effect : ε → ε × Option (ε → ε)) (deps : Option (List δ)) (env : ε) :
    ε × EffectCell ε δ :=
  match cell with
  | none =>
    let r := effect env
    (r.1, ⟨deps, r.2⟩)
  | some c =>
    if depsChanged (some c.deps) deps then
      let env₁ := match c.cleanup with
        | some f => f env
        | none => env
      let r := effect env₁
      (r.1, ⟨deps, r.2⟩)
    else
      (env, c)

/-- Modelled from the spec: when the component is torn down, the cleanup of
the last run of its effect is called ("deregistered on component teardown"). -/
def unmountEffect {ε δ : Type} (cell : Option (EffectCell ε δ)) (env : ε) : ε :=
  match cell with
  | some ⟨_, some f⟩ => f env
  | _ => env

/-! ## Too many components (lines 6-55) -/

namespace TooMany

/-- The props object of `Child`: `{ value }`. -/
structure ChildProps where
  value : String
deriving DecidableEq, Repr

/-- The type of a component element: a function component, or `memo(...)`
wrapped around one. -/
inductive ElementType where
  | function (name : String)
  | memo (inner : ElementType)
deriving DecidableEq, Repr

/-- A component element `<T key={key} value={value} />`. -/
structure Element where
  type : ElementType
  key : Nat
  props : ChildProps
deriving DecidableEq, Repr

/-- Lines 25-28 and 52-55: `function Child({ value })`. -/
def Child (props : ChildProps) : Console × Host :=
  (["child"], ⟨"div", [.text props.value]⟩)

/-- The element type of `<Child ... />`. -/
def Child.type : ElementType := .function "Child"

/-- Line 35: `const OptimizedChild = memo(Child)`. -/
def OptimizedChild : ElementType := .memo Child.type

/-- Line 16: `Array.from(...)` with a length of `n` gives `n` slots, all `undefined`. -/
def arrayFromLength (n : Nat) : List Unit := List.replicate n ()

/-- Line 17: `fill(v)` sets every slot to `v`. -/
def fill {α β : Type} (xs : List α) (v : β) : List β := xs.map fun _ => v

/-- What `App` returns: the `<button>`, the argument its click handler gives
to `setNumber`, and the component elements below the button. -/
structure AppView where
  button : Host
  onClick : Nat
  children : List Element
deriving DecidableEq, Repr

namespace Bad

/-- Lines 10-23: `App` of the version headed "Bad performance". -/
def App (number : Nat) : Console × AppView :=
  (["re render"],
   { button := ⟨"button", [.text "count", .num number]⟩
     onClick := number + 1
     children := (fill (arrayFromLength 1000) "hi im a child 👶🏻").mapIdx
       fun index item => ⟨Child.type, index, ⟨item⟩⟩ })

end Bad

namespace Optimized

/-- Lines 37-50: `App` of the version headed "Optimized".  The JSX of line 46
is `<Child key={index} value={item} />`, as in the first version. -/
def App (number : Nat) : Console × AppView :=
  (["re render"],
   { button := ⟨"button", [.text "count", .num number]⟩
     onClick := number + 1
     children := (fill (arrayFromLength 1000) "hi im a child 👶🏻").mapIdx
       fun index item => ⟨Child.type, index, ⟨item⟩⟩ })

end Optimized

/-- Calling the function behind an element type: `memo(C)` calls `C`. -/
def callComponent : ElementType → ChildProps → Console × Host
  | .function _, props => Child props
  | .memo inner, props => callComponent inner props

/-- Modelled from the spec: the framework's reconciler is not part of the
repository.  "Re-render: the UI framework re-executing a component's render
function in response to a state or prop change"; "memoizing a child prevents
its re-render when siblings' state changes" (line 31: "Child only re-render
when its props have changed").  When the parent renders, an element of a plain
function component is rendered again (its props object is a new one); an
element of a `memo` type is skipped when the previous pass had an element of
the same key and type with equal props. -/
def shouldRender (prev : Option Element) (next : Element) : Bool :=
  match next.type, prev with
  | .memo _, some p => !(decide (p.type = next.type) && decide (p.props = next.props))
  | _, _ => true

/-- The elements whose function is called in a pass that follows the pass `prev`. -/
def rendered (prev next : List Element) : List Element :=
  next.filter fun e => shouldRender (prev.find? fun p => p.key == e.key) e

/-- One render pass of the tree. -/
structure Pass where
  number : Nat
  console : Console
  view : AppView
  calls : List Element
  dom : List Host

/-- A render pass at state `number` after a pass that left the children `prev`:
`App` is called, then the function of every child that is not skipped. -/
def renderPass (app : Nat → Console × AppView) (prev : List Element) (number : Nat) : Pass :=
  let out := app number
  let calls := rendered prev out.2.children
  let results := calls.map fun e => callComponent e.type e.props
  { number := number
    console := out.1 ++ (results.map Prod.fst).flatten
    view := out.2
    calls := calls
    dom := results.map Prod.snd }

/-- The first pass: `useState(0)` and no previous children. -/
def mount (app : Nat → Console × AppView) : Pass := renderPass app [] 0

/-- A click on the button: the handler of the last pass calls `setNumber`, and
the tree is rendered again. -/
def click (app : Nat → Console × AppView) (last : Pass) : Pass :=
  renderPass app last.view.children last.view.onClick

end TooMany

/-! ## Large state objects (lines 57-105) -/

namespace LargeState

/-- What a heavy component returns: the `<button>` and the argument its click
handler gives to `setNumber`; `console` is what the render logged. -/
structure View where
  console : Console
  button : Host
  onClick : Nat
deriving DecidableEq, Repr

/-- Lines 70-74: the arrow function `hugeCalculation` of `HeavyComponentNotOpt`. -/
def HeavyComponentNotOpt.hugeCalculation (value : Double) (_ : Unit) : Console × Double :=
  (["func re-create and calculate again"], value.mulTwo)

/-- Lines 66-80: `HeavyComponentNotOpt`; its only hook state is `number`. -/
def HeavyComponentNotOpt (value : Double) (number : Nat) : View :=
  let result := HeavyComponentNotOpt.hugeCalculation value ()
  { console := ["HeavyComponentNotOpt Re-render"] ++ result.1
    button := ⟨"button", [.text "value : ", .num number, .text " -- ", .double result.2]⟩
    onClick := number + 1 }

/-- The cache of one `useMemo` call: the dependency array and the value of the
last computation. -/
structure MemoCell where
  deps : List Double
  value : Double
deriving DecidableEq, Repr

/-- Modelled from the spec: `React.useMemo` is not part of the repository.
"Memoization: caching a computed value or function reference across renders,
invalidated only when specified dependencies change."  The factory is called
when `depsChanged` says so, and its result is cached with the array. -/
def useMemo (cell : Option MemoCell) (factory : Unit → Console × Double) (deps : List Double) :
    Console × Double × MemoCell :=
  match cell with
  | none =>
    let r := factory ()
    (r.1, r.2, ⟨deps, r.2⟩)
  | some c =>
    if depsChanged (some (some c.deps)) (some deps) then
      let r := factory ()
      (r.1, r.2, ⟨deps, r.2⟩)
    else
      ([], c.value, c)

/-- The hook state of `HeavyComponent`: `number` and the `useMemo` cache. -/
structure Hooks where
  number : Nat
  memo : Option MemoCell
deriving DecidableEq, Repr

/-- Lines 94-99: the factory given to `useMemo` in `HeavyComponent`. -/
def HeavyComponent.factory (value : Double) (_ : Unit) : Console × Double :=
  (["func re-create and re-calculate again"], value.mulTwo)

/-- Lines 90-105: `HeavyComponent`, with the dependency array `[value]`. -/
def HeavyComponent (value : Double) (hooks : Hooks) : View × Hooks :=
  let m := useMemo hooks.memo (HeavyComponent.factory value) [value]
  ({ console := ["HeavyComponent Re-render"] ++ m.1
     button := ⟨"button", [.text "value : ", .num hooks.number, .text " -- ", .double m.2.1]⟩
     onClick := hooks.number + 1 },
   { number := hooks.number, memo := some m.2.2 })

/-- What makes a heavy component render again: a click on its button, or its
parent passing a `value` prop. -/
inductive Action where
  | click
  | props (value : Double)
deriving DecidableEq, Repr

namespace NotOpt

/-- Line 63: `App` renders `<HeavyComponentNotOpt value={20} />`. -/
def App (number : Nat) : View := HeavyComponentNotOpt Double.twenty number

/-- A mounted `HeavyComponentNotOpt`: its prop, its state and its last output. -/
structure Instance where
  value : Double
  number : Nat
  view : View

/-- The first render: `useState(0)`. -/
def mount (value : Double) : Instance :=
  { value := value, number := 0, view := HeavyComponentNotOpt value 0 }

/-- One more render.  A click runs the handler of the last output, which calls
`setNumber`; new props replace `value`. -/
def step (s : Instance) : Action → Instance
  | .click =>
    { s with number := s.view.onClick, view := HeavyComponentNotOpt s.value s.view.onClick }
  | .props value =>
    { s with value := value, view := HeavyComponentNotOpt value s.number }

/-- The outputs of the renders after `s`, one for each action. -/
def views (s : Instance) : List Action → List View
  | [] => []
  | a :: rest => (step s a).view :: views (step s a) rest

/-- The outputs of all renders of a component mounted with `value`. -/
def run (value : Double) (actions : List Action) : List View :=
  (mount value).view :: views (mount value) actions

end NotOpt

namespace Opt

/-- Line 87: `App` renders `<HeavyComponent value={20} />`. -/
def App (hooks : Hooks) : View × Hooks := HeavyComponent Double.twenty hooks

/-- A mounted `HeavyComponent`: its prop, its hooks and its last output. -/
structure Instance where
  value : Double
  hooks : Hooks
  view : View

/-- The first render: `useState(0)` and an empty `useMemo` cache. -/
def mount (value : Double) : Instance :=
  let r := HeavyComponent value { number := 0, memo := none }
  { value := value, hooks := r.2, view := r.1 }

/-- One more render.  A click runs the handler of the last output, which calls
`setNumber`; new props replace `value`. -/
def step (s : Instance) : Action → Instance
  | .click =>
    let r := HeavyComponent s.value { s.hooks with number := s.view.onClick }
    { s with hooks := r.2, view := r.1 }
  | .props value =>
    let r := HeavyComponent value s.hooks
    { value := value, hooks := r.2, view := r.1 }

/-- The outputs of the renders after `s`, one for each action. -/
def views (s : Instance) : List Action → List View
  | [] => []
  | a :: rest => (step s a).view :: views (step s a) rest

/-- The outputs of all renders of a component mounted with `value`. -/
def run (value : Double) (actions : List Action) : List View :=
  (mount value).view :: views (mount value) actions

end Opt

/-- How often the calculation body ran in a render: the number of times its
message is in the console. -/
def bodyRuns (message : String) (v : View) : Nat := v.console.count message

/-- What holds of a mounted `HeavyComponent` after every render: the cache
holds the array `[value]` and the value computed from it, and the click
handler of the last output sets `number + 1`. -/
def Opt.Inv (s : Opt.Instance) : Prop :=
  s.hooks.memo = some ⟨[s.value], s.value.mulTwo⟩ ∧ s.view.onClick = s.hooks.number + 1

/-- The mounted `HeavyComponent` after the renders that the actions cause. -/
def Opt.after (value : Double) (actions : List Action) : Opt.Instance :=
  actions.foldl Opt.step (Opt.mount value)

namespace Spec

/-- The button in the words of the specification: 'value : n -- v' with
`v = value * 2`. -/
def shown (clicks : Nat) (value : Double) : Host :=
  ⟨"button", [.text "value : ", .num clicks, .text " -- ", .double value.mulTwo]⟩

/-- The buttons in the words of the specification for the renders that follow
the actions, after `clicks` clicks and with the prop `value` in force. -/
def buttons (clicks : Nat) (value : Double) : List Action → List Host
  | [] => []
  | .click :: rest => shown (clicks + 1) value :: buttons (clicks + 1) value rest
  | .props v :: rest => shown clicks v :: buttons clicks v rest

/-- For each render that follows an action: `1` when its `value` prop differs
from the `value` of the render before it, else `0`. -/
def changes (value : Double) : List Action → List Nat
  | [] => []
  | .click :: rest => 0 :: changes value rest
  | .props v :: rest => (if v ≠ value then 1 else 0) :: changes v rest

end Spec

end LargeState

/-! ## Event listeners (lines 107-124) -/

namespace EventListeners

/-- A function value, known by its identity: a function of other code, or the
arrow function `resize` that the render number `render` of the component made. -/
inductive Callback where
  | foreign (id : Nat)
  | resize (render : Nat)
deriving DecidableEq, Repr

/-- An entry of the listener list of `window`. -/
structure Listener where
  type : String
  callback : Callback
deriving DecidableEq, Repr

/-- Modelled from the spec: the browser is not part of the repository
("viewport size, event dispatch" are platform services).  The window has a
viewport size and a list of registered listeners. -/
structure Window where
  innerWidth : Nat
  innerHeight : Nat
  listeners : List Listener
deriving DecidableEq, Repr

/-- Modelled from the spec: `window.addEventListener`; a listener that is
already registered for the type is not added again. -/
def addEventListener (w : Window) (type : String) (callback : Callback) : Window :=
  if (⟨type, callback⟩ : Listener) ∈ w.listeners then w
  else { w with listeners := w.listeners ++ [⟨type, callback⟩] }

/-- Modelled from the spec: `window.removeEventListener`; the entry with this
type and this function is taken out. -/
def removeEventListener (w : Window) (type : String) (callback : Callback) : Window :=
  { w with listeners := w.listeners.erase ⟨type, callback⟩ }

/-- Lines 112-115: the body of `resize`: the arguments it gives to `setWidth`
and `setHeight`. -/
def resize (w : Window) : Nat × Nat := (w.innerWidth, w.innerHeight)

/-- Lines 117-124: the effect.  It registers the `resize` of its render and
returns the cleanup that removes the same function. -/
def effect (resizeFn : Callback) (w : Window) : Window × Option (Window → Window) :=
  (addEventListener w "resize" resizeFn,
   some fun w₁ => removeEventListener w₁ "resize" resizeFn)

/-- The component and the window it lives in. -/
structure State where
  width : Nat
  height : Nat
  renders : Nat
  cell : Option (EffectCell Window Unit)
  window : Window

/-- One render of the snippet and its commit: a new `resize` is made, and the
effect, which has no dependency array, is handed to `useEffect`. -/
def render (s : State) : State :=
  let resizeFn := Callback.resize s.renders
  let r := useEffect s.cell (effect resizeFn) none s.window
  { s with renders := s.renders + 1, cell := some r.2, window := r.1 }

/-- The first render: lines 109-110 read the viewport size. -/
def mount (w : Window) : State :=
  render { width := w.innerWidth, height := w.innerHeight, renders := 0, cell := none, window := w }

/-- What happens to a mounted component: it renders again, or the viewport is
resized to the given size and the `resize` event is dispatched. -/
inductive Action where
  | rerender
  | resized (innerWidth innerHeight : Nat)
deriving DecidableEq, Repr

/-- Whether a `resize` function of the component is registered for the type. -/
def registered (type : String) (w : Window) : Bool :=
  w.listeners.any fun l =>
    l.type == type && match l.callback with
      | .resize _ => true
      | .foreign _ => false

/-- One action.  On a `resize` event a registered `resize` sets the two state
cells; the component renders again when one of them has changed. -/
def step (s : State) : Action → State
  | .rerender => render s
  | .resized iw ih =>
    let s₁ := { s with window := { s.window with innerWidth := iw, innerHeight := ih } }
    if registered "resize" s₁.window then
      let size := resize s₁.window
      if size.1 = s₁.width ∧ size.2 = s₁.height then s₁
      else render { s₁ with width := size.1, height := size.2 }
    else s₁

/-- The component after the actions. -/
def run (s : State) (actions : List Action) : State := actions.foldl step s

/-- The window after the component is unmounted. -/
def unmount (s : State) : Window := unmountEffect s.cell s.window

/-- A window in which only other code has registered listeners. -/
def foreignWindow (innerWidth innerHeight : Nat) (others : List (String × Nat)) : Window :=
  { innerWidth := innerWidth
    innerHeight := innerHeight
    listeners := others.map fun p => ⟨p.1, .foreign p.2⟩ }

/-- What holds of the mounted snippet after every render: the listeners are
those of other code followed by the `resize` of one render, and the pending
cleanup is the one that removes this `resize`. -/
def Mounted (others : List Listener) (s : State) : Prop :=
  ∃ k, s.cell = some ⟨none, some fun w => removeEventListener w "resize" (.resize k)⟩
    ∧ s.window.listeners = others ++ [⟨"resize", .resize k⟩]

end EventListeners

/-! ## Inefficient data fetching (lines 127-175) -/

namespace DataFetching

/-- A post record of the response: the fields the list reads. -/
structure Post where
  id : Nat
  title : String
deriving DecidableEq, Repr

/-- The element `<li key={item.id}>{item.title}</li>`. -/
structure Li where
  key : Nat
  title : String
deriving DecidableEq, Repr

/-- The reason of a rejected promise. -/
abbrev Err := String

/-- The response of a request: its body. -/
abbrev Response := String

/-- Modelled from the spec: the network is not part of the repository ("an
HTTP GET to a public fixed URL returning a JSON array of post records").
`fetch` answers a URL with a response or fails; `json` parses a response or
fails. -/
structure Network where
  fetch : String → Except Err Response
  json : Response → Except Err (List Post)

/-- Lines 131 and 157: `const url`. -/
def url : String := "https://jsonplaceholder.typicode.com/posts"

/-- What one call of the async function `fetchData` does: the `fetch` calls it
issues, the `setData` calls it makes, and how its promise settles. -/
structure FetchRun where
  requests : List String
  setData : List (List Post)
  settled : Except Err Unit
deriving Repr

/-- Lines 133-137 and 158-162: `async function fetchData(url)`.  A failing
`await` rejects the promise of the call and the rest of the body is not run. -/
def fetchData (net : Network) (url : String) : FetchRun :=
  match net.fetch url with
  | .error e => { requests := [url], setData := [], settled := .error e }
  | .ok response =>
    match net.json response with
    | .error e => { requests := [url], setData := [], settled := .error e }
    | .ok data => { requests := [url], setData := [data], settled := .ok () }

/-- The network as the component sees it: the requests issued so far and the
calls of `fetchData` that have not settled yet. -/
structure World where
  requests : List String
  inFlight : List FetchRun

/-- Lines 140 and 164: the effect calls `fetchData(url)` and returns nothing. -/
def effect (net : Network) (world : World) : World × Option (World → World) :=
  let call := fetchData net url
  ({ requests := world.requests ++ call.requests, inFlight := world.inFlight ++ [call] }, none)

/-- Lines 144-150 and 168-174: the list that `App` returns. -/
def list (data : List Post) : List Li := data.map fun item => ⟨item.id, item.title⟩

/-- A mounted `App`, its last output and the network. -/
structure State where
  data : List Post
  cell : Option (EffectCell World Unit)
  view : List Li
  world : World

/-- The body shared by both versions of `App`, which differ in the dependency
array of the effect only. -/
def renderWith (deps : Option (List Unit)) (net : Network) (s : State) : State :=
  let r := useEffect s.cell (effect net) deps s.world
  { s with cell := some r.2, view := list s.data, world := r.1 }

namespace Inefficient

/-- Lines 128-151: `App` whose effect has no dependency array. -/
def App (net : Network) (s : State) : State := renderWith none net s

end Inefficient

namespace WithDeps

/-- Lines 155-175: `App` whose effect has the dependency array `[]`. -/
def App (net : Network) (s : State) : State := renderWith (some []) net s

end WithDeps

/-- The first render: `useState([])`, no request issued yet. -/
def mount (app : State → State) : State :=
  app { data := [], cell := none, view := [], world := ⟨[], []⟩ }

/-- What happens to a mounted `App`: it renders again, or the oldest call of
`fetchData` that is in flight settles. -/
inductive Action where
  | rerender
  | settle
deriving DecidableEq, Repr

/-- One action.  A call that settles makes its `setData` calls, each followed
by a render; a call that made none leaves the component as it is. -/
def step (app : State → State) (s : State) : Action → State
  | .rerender => app s
  | .settle =>
    match s.world.inFlight with
    | [] => s
    | call :: rest =>
      call.setData.foldl (fun t data => app { t with data := data })
        { s with world := { s.world with inFlight := rest } }

/-- The component after the actions. -/
def run (app : State → State) (s : State) (actions : List Action) : State :=
  actions.foldl (step app) s

/-- What holds of `App` with the array `[]` after every render: the effect has
run with `[]` and returned no cleanup, and one request has been issued. -/
def Fetched (s : State) : Prop :=
  s.cell = some ⟨some [], none⟩ ∧ s.world.requests = [url]

/-- What holds of an `App` none of whose `fetchData` calls reaches `setData`:
the state and the list are empty, no effect run returned a cleanup, and no
call in flight will call `setData`. -/
def Quiet (s : State) : Prop :=
  s.data = [] ∧ s.view = [] ∧ (∀ c, s.cell = some c → c.cleanup = none)
    ∧ ∀ call ∈ s.world.inFlight, call.setData = []

/-- A network on which every `fetch` fails. -/
def offline : Network :=
  { fetch := fun _ => .error "Failed to fetch", json := fun _ => .ok [] }

end DataFetching

/-! ## Theorems -/

/-- The constants `twenty` and `forty` stand for 20 and 40, and `20 * 2` is `40`. -/
theorem twenty_forty : Double.twenty.toRat = some 20 ∧ Double.forty.toRat = some 40
    ∧ Double.twenty.mulTwo = Double.forty := by
  refine ⟨?_, ?_, ?_⟩
  · simp only [Double.twenty, Double.toRat]
    norm_num
  · simp only [Double.forty, Double.toRat]
    norm_num
  · simp [Double.twenty, Double.forty, Double.mulTwo]

/-- Doubling keeps the bit fields in range. -/
theorem mulTwo_wellFormed (x : Double) (hx : x.WellFormed) : x.mulTwo.WellFormed := by
  cases x with
  | nan => trivial
  | infinity s => trivial
  | finite s e f =>
    obtain ⟨he, hf⟩ := hx
    cases e with
    | zero =>
      simp only [Double.mulTwo]
      split
      · exact ⟨by omega, by assumption⟩
      · exact ⟨by omega, by omega⟩
    | succ e =>
      simp only [Double.mulTwo]
      split
      · exact ⟨by assumption, hf⟩
      · trivial

/-- Doubling is exact: the result stands for twice the number, except at the
largest exponent, where it is the infinity of the same sign. -/
theorem mulTwo_exact (x : Double) (hx : x.WellFormed) (q : ℚ) (hq : x.toRat = some q) :
    x.mulTwo.toRat = some (2 * q) ∨ ∃ s f, x = .finite s 2046 f ∧ x.mulTwo = .infinity s := by
  cases x with
  | nan => cases hq
  | infinity s => cases hq
  | finite s e f =>
    cases e with
    | zero =>
      left
      simp only [Double.toRat, Option.some.injEq] at hq
      subst hq
      simp only [Double.mulTwo]
      split
      · simp only [Double.toRat, Option.some.injEq]
        push_cast
        ring
      · rename_i h
        have h₁ : 2 ^ 52 ≤ 2 * f := Nat.le_of_not_lt h
        simp only [Double.toRat, Option.some.injEq]
        rw [Nat.cast_sub h₁]
        push_cast
        have h₂ : (2 : ℚ) ^ 52 = 4503599627370496 := by norm_num
        rw [h₂]
        ring
    | succ e =>
      simp only [Double.toRat, Option.some.injEq] at hq
      subst hq
      simp only [Double.mulTwo]
      split
      · left
        simp only [Double.toRat, Option.some.injEq]
        have : ((e + 1 : ℕ) : ℤ) + 1 - 1075 = ((e : ℤ) + 1 - 1075) + 1 := by push_cast; ring
        rw [this, zpow_add_one₀ (by norm_num : (2 : ℚ) ≠ 0)]
        ring
      · rename_i h
        right
        have he : e + 1 = 2046 := by
          have := hx.1
          omega
        exact ⟨s, f, by rw [he], rfl⟩

/-- The double `2^1023` times two is `Infinity`. -/
theorem mulTwo_overflow :
    (Double.finite false 2046 0).toRat = some (2 ^ 1023)
      ∧ (Double.finite false 2046 0).mulTwo = .infinity false := by
  refine ⟨?_, rfl⟩
  simp only [Double.toRat, Option.some.injEq]
  norm_num

namespace TooMany

theorem mapIdx_replicate {α β : Type} (f : Nat → α → β) (a : α) (n : Nat) :
    (List.replicate n a).mapIdx f = (List.range n).map fun i => f i a := by
  apply List.ext_getElem
  · simp
  · intro i h₁ h₂
    simp

theorem children_bad (number : Nat) :
    (Bad.App number).2.children
      = (List.range 1000).map fun i => ⟨Child.type, i, ⟨"hi im a child 👶🏻"⟩⟩ := by
  simp only [Bad.App, fill, arrayFromLength, List.map_replicate, mapIdx_replicate]

theorem children_optimized (number : Nat) :
    (Optimized.App number).2.children
      = (List.range 1000).map fun i => ⟨Child.type, i, ⟨"hi im a child 👶🏻"⟩⟩ := by
  simp only [Optimized.App, fill, arrayFromLength, List.map_replicate, mapIdx_replicate]

theorem rendered_function (prev next : List Element)
    (h : ∀ e ∈ next, e.type = Child.type) : rendered prev next = next := by
  unfold rendered
  apply List.filter_eq_self.mpr
  intro e he
  simp [shouldRender, h e he, Child.type]

theorem flatten_map_singleton {α β : Type} (l : List α) (b : β) :
    (l.map fun _ => [b]).flatten = List.replicate l.length b := by
  induction l with
  | nil => rfl
  | cons _ t ih => simp [List.replicate_succ, ih]

theorem pass_of_children (app : Nat → Console × AppView) (prev : List Element) (number : Nat)
    (h : (app number).2.children
      = (List.range 1000).map fun i => ⟨Child.type, i, ⟨"hi im a child 👶🏻"⟩⟩) :
    (renderPass app prev number).calls
        = (List.range 1000).map (fun i => ⟨Child.type, i, ⟨"hi im a child 👶🏻"⟩⟩)
      ∧ (renderPass app prev number).console
        = (app number).1 ++ List.replicate 1000 "child" := by
  have hr : rendered prev (app number).2.children = (app number).2.children := by
    apply rendered_function
    intro e he
    rw [h] at he
    obtain ⟨i, _, rfl⟩ := List.mem_map.mp he
    rfl
  have hc : (renderPass app prev number).calls = (app number).2.children := hr
  have hk : (renderPass app prev number).console
      = (app number).1 ++ (((app number).2.children.map
          fun e => callComponent e.type e.props).map Prod.fst).flatten := by
    simp only [renderPass, hr]
  refine ⟨hc.trans h, ?_⟩
  rw [hk, h, List.map_map, List.map_map]
  have hm : ∀ g : Nat → List String, (∀ i, g i = ["child"]) →
      ((List.range 1000).map g).flatten = List.replicate 1000 "child" := by
    intro g hg
    rw [funext hg, flatten_map_singleton, List.length_range]
  exact congrArg _ (hm _ fun i => rfl)

/-- With `memo`, an element that has the type `OptimizedChild`, the key and the
props of its predecessor is skipped. -/
theorem shouldRender_memo_same (key : Nat) (props : ChildProps) :
    shouldRender (some ⟨OptimizedChild, key, props⟩) ⟨OptimizedChild, key, props⟩ = false := by
  simp [shouldRender, OptimizedChild]

/-- C5: in the version headed "Bad performance", every render pass of `App`,
whatever the state `number` and whatever the pass before it, calls `Child`
exactly 1000 times, once for each key 0..999 in order and each time with the
value 'hi im a child 👶🏻'; the console gets 're render' and then 1000 times
'child'.  A click on the button is such a pass, at the state `number + 1`. -/
theorem bad_app_renders_every_child (prev : List Element) (number : Nat) :
    (renderPass Bad.App prev number).calls
        = (List.range 1000).map (fun i => ⟨Child.type, i, ⟨"hi im a child 👶🏻"⟩⟩)
      ∧ ((renderPass Bad.App prev number).calls.map fun e => callComponent e.type e.props)
        = (List.range 1000).map (fun _ => Child ⟨"hi im a child 👶🏻"⟩)
      ∧ (renderPass Bad.App prev number).calls.length = 1000
      ∧ (renderPass Bad.App prev number).console = "re render" :: List.replicate 1000 "child"
      ∧ click Bad.App (renderPass Bad.App prev number)
        = renderPass Bad.App (renderPass Bad.App prev number).calls (number + 1) := by
  obtain ⟨hc, hk⟩ := pass_of_children Bad.App prev number (children_bad number)
  refine ⟨hc, ?_, ?_, ?_, ?_⟩
  · rw [hc, List.map_map]
    rfl
  · rw [hc]
    simp
  · rw [hk]
    rfl
  · simp only [click, hc]
    simp only [renderPass, children_bad]
    rfl

/-- C1, the code at a click: `App` of the version headed "Optimized" puts
`<Child>` and not `<OptimizedChild>` in its JSX (line 46), so the pass that a
click starts, at whatever state `number`, calls `Child` 1000 times again, with
the same value as in the pass before. -/
theorem optimized_app_click_renders_every_child (prev : List Element) (number : Nat) :
    (click Optimized.App (renderPass Optimized.App prev number)).calls
        = (List.range 1000).map (fun i => ⟨Child.type, i, ⟨"hi im a child 👶🏻"⟩⟩)
      ∧ (click Optimized.App (renderPass Optimized.App prev number)).calls.length = 1000
      ∧ (click Optimized.App (renderPass Optimized.App prev number)).console
        = "re render" :: List.replicate 1000 "child"
      ∧ (click Optimized.App (renderPass Optimized.App prev number)).view.children
        = (renderPass Optimized.App prev number).view.children := by
  obtain ⟨hc, hk⟩ := pass_of_children Optimized.App
    (renderPass Optimized.App prev number).view.children
    (renderPass Optimized.App prev number).view.onClick (children_optimized _)
  refine ⟨hc, ?_, ?_, ?_⟩
  · simp only [click, hc]
    simp
  · simp only [click, hk]
    rfl
  · simp only [click, renderPass, children_optimized]

end TooMany

namespace LargeState

theorem notOpt_view (value : Double) (number : Nat) :
    (HeavyComponentNotOpt value number).button = Spec.shown number value
      ∧ (HeavyComponentNotOpt value number).onClick = number + 1
      ∧ bodyRuns "func re-create and calculate again" (HeavyComponentNotOpt value number) = 1 := by
  refine ⟨rfl, rfl, ?_⟩
  simp [bodyRuns, HeavyComponentNotOpt, HeavyComponentNotOpt.hugeCalculation]

theorem notOpt_views (actions : List Action) :
    ∀ t : NotOpt.Instance, t.view.onClick = t.number + 1 →
      (NotOpt.views t actions).map (fun v => v.button) = Spec.buttons t.number t.value actions
        ∧ (NotOpt.views t actions).map (bodyRuns "func re-create and calculate again")
          = List.replicate actions.length 1 := by
  induction actions with
  | nil => intro t _; exact ⟨rfl, rfl⟩
  | cons a rest ih =>
    intro t ht
    cases a with
    | click =>
      have h := ih (NotOpt.step t .click) rfl
      simp only [NotOpt.views, List.map_cons, Spec.buttons, List.length_cons,
        List.replicate_succ, h.1, h.2]
      simp only [NotOpt.step, ht, (notOpt_view _ _).1, (notOpt_view _ _).2.2, and_self]
    | props v =>
      have h := ih (NotOpt.step t (.props v)) rfl
      simp only [NotOpt.views, List.map_cons, Spec.buttons, List.length_cons,
        List.replicate_succ, h.1, h.2]
      simp only [NotOpt.step, (notOpt_view _ _).1, (notOpt_view _ _).2.2, and_self]

theorem opt_first (value : Double) (number : Nat) :
    (HeavyComponent value ⟨number, none⟩).1.button = Spec.shown number value
      ∧ (HeavyComponent value ⟨number, none⟩).1.onClick = number + 1
      ∧ (HeavyComponent value ⟨number, none⟩).2 = ⟨number, some ⟨[value], value.mulTwo⟩⟩
      ∧ bodyRuns "func re-create and re-calculate again" (HeavyComponent value ⟨number, none⟩).1
        = 1 := by
  refine ⟨rfl, rfl, rfl, ?_⟩
  simp [bodyRuns, HeavyComponent, useMemo, HeavyComponent.factory]

theorem opt_next (value old : Double) (number : Nat) :
    (HeavyComponent value ⟨number, some ⟨[old], old.mulTwo⟩⟩).1.button = Spec.shown number value
      ∧ (HeavyComponent value ⟨number, some ⟨[old], old.mulTwo⟩⟩).1.onClick = number + 1
      ∧ (HeavyComponent value ⟨number, some ⟨[old], old.mulTwo⟩⟩).2
        = ⟨number, some ⟨[value], value.mulTwo⟩⟩
      ∧ bodyRuns "func re-create and re-calculate again"
          (HeavyComponent value ⟨number, some ⟨[old], old.mulTwo⟩⟩).1
        = if value ≠ old then 1 else 0 := by
  by_cases h : value = old
  · subst h
    simp [bodyRuns, HeavyComponent, useMemo, depsChanged, HeavyComponent.factory, Spec.shown]
  · have h₁ : ¬ old = value := fun e => h e.symm
    simp [bodyRuns, HeavyComponent, useMemo, depsChanged, HeavyComponent.factory, Spec.shown,
      h, h₁]

theorem opt_mount_inv (value : Double) : Opt.Inv (Opt.mount value) :=
  ⟨congrArg Hooks.memo (opt_first value 0).2.2.1, rfl⟩

theorem opt_step (s : Opt.Instance) (hs : Opt.Inv s) (a : Action) :
    Opt.Inv (Opt.step s a)
      ∧ [(Opt.step s a).view.button]
        = (Spec.buttons s.hooks.number s.value [a])
      ∧ [bodyRuns "func re-create and re-calculate again" (Opt.step s a).view]
        = Spec.changes s.value [a]
      ∧ (Opt.step s a).hooks.number = (match a with
          | .click => s.hooks.number + 1
          | .props _ => s.hooks.number)
      ∧ (Opt.step s a).value = (match a with
          | .click => s.value
          | .props v => v) := by
  obtain ⟨value, ⟨number, memo⟩, view⟩ := s
  obtain ⟨hm, hc⟩ := hs
  simp only at hm hc
  subst hm
  cases a with
  | click =>
    have h := opt_next value value (view.onClick)
    simp only [Opt.step, Opt.Inv, Spec.buttons, Spec.changes, h.1, h.2.1, h.2.2.1]
    rw [hc] at h
    simp [h.2.2.2, hc]
  | props v =>
    have h := opt_next v value number
    simp only [Opt.step, Opt.Inv, Spec.buttons, Spec.changes, h.1, h.2.1, h.2.2.1]
    simp [h.2.2.2]

theorem opt_views (actions : List Action) :
    ∀ s : Opt.Instance, Opt.Inv s →
      (Opt.views s actions).map (fun v => v.button) = Spec.buttons s.hooks.number s.value actions
        ∧ (Opt.views s actions).map (bodyRuns "func re-create and re-calculate again")
          = Spec.changes s.value actions := by
  induction actions with
  | nil => intro s _; exact ⟨rfl, rfl⟩
  | cons a rest ih =>
    intro s hs
    obtain ⟨hi, hb, hr, hn, hv⟩ := opt_step s hs a
    obtain ⟨ih₁, ih₂⟩ := ih (Opt.step s a) hi
    simp only [Opt.views, List.map_cons, ih₁, ih₂, hn, hv]
    cases a with
    | click =>
      simp only [Spec.buttons, Spec.changes, List.cons.injEq, and_true] at hb hr ⊢
      exact ⟨hb, hr⟩
    | props v =>
      simp only [Spec.buttons, Spec.changes, List.cons.injEq, and_true] at hb hr ⊢
      exact ⟨hb, hr⟩

theorem opt_foldl_inv (actions : List Action) :
    ∀ s : Opt.Instance, Opt.Inv s → Opt.Inv (actions.foldl Opt.step s) := by
  induction actions with
  | nil => intro s hs; exact hs
  | cons a rest ih => intro s hs; exact ih _ (opt_step s hs a).1

theorem changes_same (value : Double) (actions : List Action)
    (h : ∀ a ∈ actions, a = .click ∨ a = .props value) :
    Spec.changes value actions = List.replicate actions.length 0 := by
  induction actions with
  | nil => rfl
  | cons a rest ih =>
    have hr := ih fun b hb => h b (List.mem_cons_of_mem _ hb)
    rcases h a (List.mem_cons_self _ _) with rfl | rfl
    · simp [Spec.changes, hr, List.replicate_succ]
    · simp [Spec.changes, hr, List.replicate_succ]

/-- C2: in `HeavyComponent` the factory given to `useMemo` runs once in the
first render; in a later render it runs once when the `value` prop differs
from the `value` of the render before, and not at all otherwise (a click never
runs it); so over the first render and any renders in which `value` stays the
same, the body runs exactly once. -/
theorem heavy_component_memo_runs (value : Double) (actions : List Action) (next : Action) :
    bodyRuns "func re-create and re-calculate again" (Opt.mount value).view = 1
      ∧ bodyRuns "func re-create and re-calculate again"
          (Opt.step (Opt.after value actions) next).view
        = (match next with
          | .click => 0
          | .props v => if v ≠ (Opt.after value actions).value then 1 else 0)
      ∧ ((∀ a ∈ actions, a = .click ∨ a = .props value) →
          ((Opt.run value actions).map
            (bodyRuns "func re-create and re-calculate again")).sum = 1) := by
  refine ⟨(opt_first value 0).2.2.2, ?_, ?_⟩
  · have h := (opt_step _ (opt_foldl_inv actions _ (opt_mount_inv value)) next).2.2.1
    cases next with
    | click => simpa [Spec.changes, Opt.after] using h
    | props v => simpa [Spec.changes, Opt.after] using h
  · intro h
    have hv := (opt_views actions _ (opt_mount_inv value)).2
    have hm : (Opt.mount value).value = value := rfl
    rw [hm, changes_same value actions h] at hv
    have hf : bodyRuns "func re-create and re-calculate again" (Opt.mount value).view = 1 :=
      (opt_first value 0).2.2.2
    simp only [Opt.run, List.map_cons, hv, hf]
    simp

/-- The witness of C2: mounted with the value 20 and clicked three times, the
body has run once. -/
theorem heavy_component_memo_runs_witness :
    (∀ a ∈ [Action.click, Action.click, Action.click], a = .click ∨ a = .props Double.twenty)
      ∧ ((Opt.run Double.twenty [.click, .click, .click]).map
          (bodyRuns "func re-create and re-calculate again")).sum = 1 :=
  ⟨by simp, (heavy_component_memo_runs Double.twenty [.click, .click, .click] .click).2.2
    (by simp)⟩

/-- C6: in `HeavyComponentNotOpt` the body of `hugeCalculation` runs once in
every render, whatever caused the render: over the first render and the `n - 1`
renders that follow any `n - 1` actions it runs exactly `n` times. -/
theorem heavy_component_not_opt_runs (value : Double) (actions : List Action) :
    (NotOpt.run value actions).length = actions.length + 1
      ∧ (NotOpt.run value actions).map (bodyRuns "func re-create and calculate again")
        = List.replicate (actions.length + 1) 1
      ∧ ((NotOpt.run value actions).map
          (bodyRuns "func re-create and calculate again")).sum = actions.length + 1 := by
  have h := (notOpt_views actions (NotOpt.mount value) rfl).2
  have hl : (NotOpt.views (NotOpt.mount value) actions).length = actions.length := by
    have := congrArg List.length h
    simpa using this
  have hm : (NotOpt.run value actions).map (bodyRuns "func re-create and calculate again")
      = List.replicate (actions.length + 1) 1 := by
    have hf : bodyRuns "func re-create and calculate again" (NotOpt.mount value).view = 1 :=
      (notOpt_view value 0).2.2
    simp only [NotOpt.run, List.map_cons, h, List.replicate_succ, hf]
  refine ⟨by simp [NotOpt.run, hl], hm, ?_⟩
  rw [hm]
  simp

/-- C8: `HeavyComponent` and `HeavyComponentNotOpt`, mounted with the same
double `value` and given the same clicks and prop changes, return the same
button in every render: 'value : n -- v' with `n` the clicks so far and `v` the
double `value * 2` for the `value` of that render, also when `value` has just
changed; for the value 20 that `App` passes, the first button is
'value : 0 -- 40'. -/
theorem heavy_components_show_the_same (value : Double) (actions : List Action) :
    (Opt.run value actions).map (fun v => v.button)
        = (NotOpt.run value actions).map (fun v => v.button)
      ∧ (Opt.run value actions).map (fun v => v.button)
        = Spec.shown 0 value :: Spec.buttons 0 value actions
      ∧ (Opt.App ⟨0, none⟩).1.button
        = ⟨"button", [.text "value : ", .num 0, .text " -- ", .double Double.forty]⟩
      ∧ (NotOpt.App 0).button
        = ⟨"button", [.text "value : ", .num 0, .text " -- ", .double Double.forty]⟩
      ∧ Double.twenty.toRat = some 20 ∧ Double.forty.toRat = some 40 := by
  have ho := (opt_views actions _ (opt_mount_inv value)).1
  have hn := (notOpt_views actions (NotOpt.mount value) rfl).1
  have e₁ : (Opt.run value actions).map (fun v => v.button)
      = Spec.shown 0 value :: Spec.buttons 0 value actions := by
    simp only [Opt.run, List.map_cons, ho]
    rfl
  have e₂ : (NotOpt.run value actions).map (fun v => v.button)
      = Spec.shown 0 value :: Spec.buttons 0 value actions := by
    simp only [NotOpt.run, List.map_cons, hn]
    rfl
  have hd : Double.twenty.mulTwo = Double.forty := twenty_forty.2.2
  refine ⟨e₁.trans e₂.symm, e₁, ?_, ?_, twenty_forty.1, twenty_forty.2.1⟩
  · rw [← hd]
    rfl
  · rw [← hd]
    rfl

end LargeState

namespace EventListeners

theorem resize_not_foreign (others : List (String × Nat)) (type : String) (k : Nat) :
    (⟨type, .resize k⟩ : Listener) ∉ others.map fun p => (⟨p.1, .foreign p.2⟩ : Listener) := by
  intro h
  obtain ⟨p, _, hp⟩ := List.mem_map.mp h
  cases hp

theorem add_fresh (w : Window) (l : Listener) (h : l ∉ w.listeners) :
    (addEventListener w l.type l.callback).listeners = w.listeners ++ [l] := by
  simp [addEventListener, h]

theorem remove_last (w : Window) (others : List Listener) (l : Listener) (h : l ∉ others)
    (hw : w.listeners = others ++ [l]) :
    (removeEventListener w l.type l.callback).listeners = others := by
  simp [removeEventListener, hw, List.erase_append_right _ h]

theorem render_first (others : List Listener) (s : State) (hc : s.cell = none)
    (hw : s.window.listeners = others)
    (hf : (⟨"resize", .resize s.renders⟩ : Listener) ∉ others) :
    Mounted others (render s) := by
  refine ⟨s.renders, ?_, ?_⟩
  · simp [render, useEffect, hc, effect]
  · have h := add_fresh s.window ⟨"resize", .resize s.renders⟩ (hw ▸ hf)
    simp only [render, useEffect, hc, effect, h, hw]

theorem render_next (others : List Listener) (s : State) (hs : Mounted others s)
    (hf : ∀ k, (⟨"resize", .resize k⟩ : Listener) ∉ others) :
    Mounted others (render s) := by
  obtain ⟨k, hc, hw⟩ := hs
  refine ⟨s.renders, ?_, ?_⟩
  · simp [render, useEffect, hc, effect, depsChanged]
  · have h₁ := remove_last s.window others ⟨"resize", .resize k⟩ (hf k) hw
    have h₂ := add_fresh (removeEventListener s.window "resize" (.resize k))
      ⟨"resize", .resize s.renders⟩ (h₁ ▸ hf s.renders)
    simp only [render, useEffect, hc, effect, depsChanged, if_true, h₂, h₁]

theorem step_mounted (others : List Listener) (s : State) (hs : Mounted others s)
    (hf : ∀ k, (⟨"resize", .resize k⟩ : Listener) ∉ others) (a : Action) :
    Mounted others (step s a) := by
  cases a with
  | rerender => exact render_next others s hs hf
  | resized iw ih =>
    have h₁ : Mounted others
        { s with window := { s.window with innerWidth := iw, innerHeight := ih } } := hs
    simp only [step]
    split
    · split
      · exact h₁
      · exact render_next others _ h₁ hf
    · exact h₁

theorem run_mounted (others : List Listener)
    (hf : ∀ k, (⟨"resize", .resize k⟩ : Listener) ∉ others) (actions : List Action) :
    ∀ s, Mounted others s → Mounted others (run s actions) := by
  induction actions with
  | nil => intro s hs; exact hs
  | cons a rest ih => intro s hs; exact ih _ (step_mounted others s hs hf a)

/-- C4: the effect registers the `resize` of its render and returns the
cleanup that removes this same function.  Mounted in a window where only other
code has listeners, and after any renders and `resize` events, the component
has a `resize` registered; once it is unmounted the listeners of the window are
those of the other code again, and no `resize` of the component is among them. -/
theorem resize_listener_removed (innerWidth innerHeight : Nat) (others : List (String × Nat))
    (actions : List Action) (fn : Callback) (w : Window) :
    effect fn w
        = (addEventListener w "resize" fn, some fun w₁ => removeEventListener w₁ "resize" fn)
      ∧ registered "resize"
          (run (mount (foreignWindow innerWidth innerHeight others)) actions).window = true
      ∧ (unmount (run (mount (foreignWindow innerWidth innerHeight others)) actions)).listeners
        = (foreignWindow innerWidth innerHeight others).listeners
      ∧ ∀ type k, (⟨type, .resize k⟩ : Listener)
          ∉ (unmount (run (mount (foreignWindow innerWidth innerHeight others))
              actions)).listeners := by
  have hf : ∀ type k, (⟨type, .resize k⟩ : Listener)
      ∉ (foreignWindow innerWidth innerHeight others).listeners :=
    fun type k => resize_not_foreign others type k
  have hm : Mounted (foreignWindow innerWidth innerHeight others).listeners
      (mount (foreignWindow innerWidth innerHeight others)) :=
    render_first _ _ rfl rfl (hf "resize" 0)
  obtain ⟨k, hc, hw⟩ := run_mounted _ (hf "resize") actions _ hm
  have hu : (unmount (run (mount (foreignWindow innerWidth innerHeight others))
      actions)).listeners = (foreignWindow innerWidth innerHeight others).listeners := by
    simp only [unmount, unmountEffect, hc]
    exact remove_last _ _ ⟨"resize", .resize k⟩ (hf "resize" k) hw
  refine ⟨rfl, ?_, hu, ?_⟩
  · simp [registered, hw]
  · intro type j
    rw [hu]
    exact hf type j

end EventListeners

namespace DataFetching

theorem fetchData_requests (net : Network) (u : String) : (fetchData net u).requests = [u] := by
  unfold fetchData
  split
  · rfl
  · split <;> rfl

theorem withDeps_first (net : Network) (s : State) (hc : s.cell = none)
    (hw : s.world.requests = []) : Fetched (WithDeps.App net s) := by
  simp [Fetched, WithDeps.App, renderWith, useEffect, hc, effect, hw, fetchData_requests]

theorem withDeps_next (net : Network) (s : State) (hs : Fetched s) :
    Fetched (WithDeps.App net s) := by
  obtain ⟨hc, hw⟩ := hs
  simp [Fetched, WithDeps.App, renderWith, useEffect, hc, depsChanged, hw]

theorem withDeps_setData (net : Network) (ds : List (List Post)) :
    ∀ s, Fetched s →
      Fetched (ds.foldl (fun t data => WithDeps.App net { t with data := data }) s) := by
  induction ds with
  | nil => intro s hs; exact hs
  | cons d rest ih => intro s hs; exact ih _ (withDeps_next net { s with data := d } hs)

theorem withDeps_step (net : Network) (s : State) (hs : Fetched s) (a : Action) :
    Fetched (step (WithDeps.App net) s a) := by
  cases a with
  | rerender => exact withDeps_next net s hs
  | settle =>
    simp only [step]
    split
    · exact hs
    · exact withDeps_setData net _ _ hs

theorem withDeps_run (net : Network) (actions : List Action) :
    ∀ s, Fetched s → Fetched (run (WithDeps.App net) s actions) := by
  induction actions with
  | nil => intro s hs; exact hs
  | cons a rest ih => intro s hs; exact ih _ (withDeps_step net s hs a)

/-- Without the dependency array the effect runs after every render: a render
of a mounted `App` issues one more request. -/
theorem inefficient_render_fetches (net : Network) (s : State) (c : EffectCell World Unit)
    (hc : s.cell = some c) (hn : c.cleanup = none) :
    (Inefficient.App net s).world.requests = s.world.requests ++ [url] := by
  simp [Inefficient.App, renderWith, useEffect, hc, depsChanged, hn, effect, fetchData_requests]

/-- C3: in the `App` whose effect has the dependency array `[]`, the first
render is followed by one `fetch` of the posts URL, and after any later renders
and any settling of the call, the render after `setData` included, the requests
issued are still this one. -/
theorem fetch_issued_once (net : Network) (actions : List Action) :
    (mount (WithDeps.App net)).world.requests = [url]
      ∧ (run (WithDeps.App net) (mount (WithDeps.App net)) actions).world.requests = [url]
      ∧ url = "https://jsonplaceholder.typicode.com/posts" := by
  have hm : Fetched (mount (WithDeps.App net)) := withDeps_first net _ rfl rfl
  exact ⟨hm.2, (withDeps_run net actions _ hm).2, rfl⟩

theorem quiet_render (deps : Option (List Unit)) (net : Network)
    (hq : (fetchData net url).setData = []) (s : State) (hs : Quiet s) :
    Quiet (renderWith deps net s) := by
  obtain ⟨hd, _, hc, hf⟩ := hs
  have hadd : ∀ call ∈ s.world.inFlight ++ [fetchData net url], call.setData = [] := by
    intro call h
    rcases List.mem_append.mp h with h | h
    · exact hf call h
    · rw [List.mem_singleton.mp h]
      exact hq
  cases hcell : s.cell with
  | none =>
    refine ⟨hd, ?_, ?_, ?_⟩
    · simp [renderWith, list, hd]
    · intro c h
      simp only [renderWith, useEffect, hcell, effect, Option.some.injEq] at h
      rw [← h]
    · simpa [renderWith, useEffect, hcell, effect] using hadd
  | some c =>
    have hn := hc c hcell
    by_cases hch : depsChanged (some c.deps) deps = true
    · refine ⟨hd, ?_, ?_, ?_⟩
      · simp [renderWith, list, hd]
      · intro c₁ h
        simp only [renderWith, useEffect, hcell, hch, if_true, effect, Option.some.injEq] at h
        rw [← h]
      · simpa [renderWith, useEffect, hcell, hch, hn, effect] using hadd
    · refine ⟨hd, ?_, ?_, ?_⟩
      · simp [renderWith, list, hd]
      · intro c₁ h
        simp only [renderWith, useEffect, hcell, hch, Option.some.injEq] at h
        rw [← h]
        exact hn
      · simpa [renderWith, useEffect, hcell, hch] using hf

theorem quiet_step (deps : Option (List Unit)) (net : Network)
    (hq : (fetchData net url).setData = []) (s : State) (hs : Quiet s) (a : Action) :
    Quiet (step (renderWith deps net) s a) := by
  cases a with
  | rerender => exact quiet_render deps net hq s hs
  | settle =>
    simp only [step]
    split
    · exact hs
    · rename_i call rest hfl
      obtain ⟨hd, hv, hc, hf⟩ := hs
      have hcall : call.setData = [] := hf call (hfl ▸ List.mem_cons_self _ _)
      rw [hcall]
      exact ⟨hd, hv, hc, fun c h => hf c (hfl ▸ List.mem_cons_of_mem _ h)⟩

theorem quiet_run (deps : Option (List Unit)) (net : Network)
    (hq : (fetchData net url).setData = []) (actions : List Action) :
    ∀ s, Quiet s → Quiet (run (renderWith deps net) s actions) := by
  induction actions with
  | nil => intro s hs; exact hs
  | cons a rest ih => intro s hs; exact ih _ (quiet_step deps net hq s hs a)

/-- C7: `fetchData` calls `setData` exactly when `fetch` and `json` both
succeed, once and with the parsed value; when one of them fails it calls
`setData` not at all.  A call that settles without `setData` leaves the
component as it was, state and list included; and when the call for the posts
URL fails, `data` stays the empty list and the list stays empty through any
renders and settlings, in both versions of `App`. -/
theorem fetchData_failure_leaves_data (net : Network) (u : String) (deps : Option (List Unit))
    (actions : List Action) :
    ((fetchData net u).setData = [] ↔
        ((∃ e, net.fetch u = .error e) ∨ ∃ r e, net.fetch u = .ok r ∧ net.json r = .error e))
      ∧ (∀ d, (fetchData net u).setData = [d] ↔ ∃ r, net.fetch u = .ok r ∧ net.json r = .ok d)
      ∧ ((fetchData net u).setData = [] ∨ ∃ d, (fetchData net u).setData = [d])
      ∧ (∀ (app : State → State) (s : State) (rest : List FetchRun),
          s.world.inFlight = fetchData net u :: rest → (fetchData net u).setData = [] →
            (step app s .settle).data = s.data ∧ (step app s .settle).view = s.view
              ∧ (step app s .settle).world.requests = s.world.requests)
      ∧ ((fetchData net url).setData = [] →
          (run (renderWith deps net) (mount (renderWith deps net)) actions).data = []
            ∧ (run (renderWith deps net) (mount (renderWith deps net)) actions).view = []) := by
  refine ⟨?_, ?_, ?_, ?_, ?_⟩
  · cases hf : net.fetch u with
    | error e => simp [fetchData, hf]
    | ok r =>
      cases hj : net.json r with
      | error e => simp [fetchData, hf, hj]
      | ok d => simp [fetchData, hf, hj]
  · intro d
    cases hf : net.fetch u with
    | error e => simp [fetchData, hf]
    | ok r =>
      cases hj : net.json r with
      | error e => simp [fetchData, hf, hj]
      | ok d₁ => simp [fetchData, hf, hj]
  · cases hf : net.fetch u with
    | error e => simp [fetchData, hf]
    | ok r =>
      cases hj : net.json r with
      | error e => simp [fetchData, hf, hj]
      | ok d => simp [fetchData, hf, hj]
  · intro app s rest hfl hq
    simp only [step, hfl, hq, List.foldl_nil, and_self]
  · intro hq
    have hm : Quiet (mount (renderWith deps net)) :=
      quiet_render deps net hq _ ⟨rfl, rfl, fun c h => (by cases h), fun c h => (by cases h)⟩
    have h := quiet_run deps net hq actions _ hm
    exact ⟨h.1, h.2.1⟩

/-- The witness of C7: on a network where `fetch` fails, `fetchData` makes no
`setData` call, and after the call has settled and `App` has rendered again,
`data` and the list are still empty. -/
theorem fetchData_failure_leaves_data_witness :
    (fetchData offline url).setData = []
      ∧ (run (renderWith (some []) offline) (mount (renderWith (some []) offline))
          [.settle, .rerender]).data = []
      ∧ (run (renderWith (some []) offline) (mount (renderWith (some []) offline))
          [.settle, .rerender]).view = [] :=
  ⟨rfl, (fetchData_failure_leaves_data offline url (some []) [.settle, .rerender]).2.2.2.2 rfl⟩

end DataFetching

end PerformanceApi
